import Mathlib

/-!
# Verification of the chunked range-query executor and bundle detector

Shallow embedding of `query/query.go` from the web3-toolkit repository:
the chunked concurrent range-query executor (`PaginatedQuery`) and the
bundle sequence detector (`SearchBundle` / `findBundleInBlock`).

Modelling conventions:
* `big.Int` block numbers are `Int`; `int64` chunk sizes are `Int`.
* Addresses and 32-byte hashes are `Nat`; the zero address is `0`.
* The external capabilities (`FilterLogs`, `BlockByNumber`,
  `TransactionReceipt`) are oracle parameters returning `Except Unit _`.
* The concurrent worker pool is determinized: with a deterministic fetch
  oracle, each chunk's worker either succeeds on its first fetch or
  retries the identical call forever, so the chunked path yields either
  the per-chunk results in producer order or divergence.  The producer
  goroutine's chunk loop is modelled with explicit fuel
  `(toBlock - fromBlock).toNat`, which dominates its iteration count
  whenever the effective chunk size is ≥ 1 (always true after defaults).
-/

deriving instance DecidableEq for Except

/-- A log entry (`types.Log`): emitting address, topics (topic 0 is the
event signature), block number and transaction hash. -/
structure Log where
  address : Nat
  topics : List Nat
  blockNumber : Nat
  txHash : Nat
deriving DecidableEq, Repr

/-- A transaction, identified by its hash (`types.Transaction`). -/
structure Tx where
  hash : Nat
deriving DecidableEq, Repr

/-- A transaction receipt (`types.Receipt`): the logs it emitted. -/
structure Receipt where
  logs : List Log
deriving DecidableEq, Repr

/-- A block: its ordered transaction list (`types.Block`). -/
structure Block where
  transactions : List Tx
deriving DecidableEq, Repr

/-- `QueryConfig` from query.go: bounds, filter, worker count, chunk size.
Absent `*big.Int` pointers are `none`. -/
structure QueryConfig where
  fromBlock : Option Int
  toBlock : Option Int
  addresses : List Nat
  topics : List (List Nat)
  maxWorkers : Int
  chunkSize : Int
deriving DecidableEq, Repr

/-- The external log-fetch capability `client.FilterLogs`:
arguments are fromBlock, toBlock, address filter, topic filter. -/
def FetchFn : Type :=
  Int → Int → List Nat → List (List Nat) → Except Unit (List Log)

/-- Effective chunk size after the default in `PaginatedQuery`
(`if config.ChunkSize <= 0 { config.ChunkSize = 10000 }`). -/
def effChunkSize (cs : Int) : Int :=
  if cs ≤ 0 then 10000 else cs

/-- The producer goroutine's loop (query.go lines 122-137): while
`currentBlock < toBlock`, emit `[currentBlock, min (currentBlock +
chunkSize - 1) toBlock]` and advance to `chunkEnd + 1`.  Fuel bounds the
iteration count; `generateChunks` supplies fuel that dominates it. -/
def chunkLoop (toBlock chunkSize : Int) : Nat → Int → List (Int × Int)
  | 0, _ => []
  | fuel + 1, currentBlock =>
    if currentBlock < toBlock then
      let chunkEnd0 := currentBlock + (chunkSize - 1)
      let chunkEnd := if chunkEnd0 > toBlock then toBlock else chunkEnd0
      (currentBlock, chunkEnd) :: chunkLoop toBlock chunkSize fuel (chunkEnd + 1)
    else []

/-- The work chunks the producer goroutine enqueues, starting from
`fromBlock`. -/
def generateChunks (fromBlock toBlock chunkSize : Int) : List (Int × Int) :=
  chunkLoop toBlock chunkSize (toBlock - fromBlock).toNat fromBlock

/-- `true` iff the `Except` is `ok` (a successful fetch). -/
def exceptIsOk : Except Unit (List Log) → Bool
  | .ok _ => true
  | .error _ => false

/-- Extract the logs of a successful fetch. -/
def exceptLogs : Except Unit (List Log) → Option (List Log)
  | .ok l => some l
  | .error _ => none

/-- Errors `PaginatedQuery` can return (other than the aggregate and
cancellation errors, which the determinized model never reaches —
see `gatherResults` for the faithful collector). -/
inductive PQError where
  | missingBounds
  | fromGtTo
  | singleQueryFailed
deriving DecidableEq, Repr

/-- Observable outcome of `PaginatedQuery`: logs, an error, or
divergence (a worker retrying a deterministically failing chunk
forever). -/
inductive PQOutcome where
  | ok (logs : List Log)
  | err (e : PQError)
  | diverge
deriving DecidableEq, Repr

/-- A `PaginatedQuery` run together with instrumentation: the block
ranges passed to the fetch capability and whether the worker-pool
(chunked) path was taken. -/
structure PQTrace where
  outcome : PQOutcome
  issued : List (Int × Int)
  usedWorkerPool : Bool
deriving DecidableEq, Repr

/-- `PaginatedQuery` (query.go lines 40-175), determinized.  Defaults,
validation, the single-query fast path when `toBlock - fromBlock ≤
chunkSize`, and otherwise the chunked worker-pool path in which every
chunk is fetched (a worker retries its chunk until success, so with a
deterministic oracle a failing chunk means divergence). -/
def paginatedQuery (fetch : FetchFn) (config : QueryConfig) : PQTrace :=
  let chunkSize := effChunkSize config.chunkSize
  match config.fromBlock, config.toBlock with
  | none, _ => ⟨.err .missingBounds, [], false⟩
  | some _, none => ⟨.err .missingBounds, [], false⟩
  | some fromBlock, some toBlock =>
    if fromBlock > toBlock then ⟨.err .fromGtTo, [], false⟩
    else
      let blockRange := toBlock - fromBlock
      if blockRange ≤ chunkSize then
        match fetch fromBlock toBlock config.addresses config.topics with
        | .ok logs => ⟨.ok logs, [(fromBlock, toBlock)], false⟩
        | .error _ => ⟨.err .singleQueryFailed, [(fromBlock, toBlock)], false⟩
      else
        let chunks := generateChunks fromBlock toBlock chunkSize
        let results := chunks.map fun r => fetch r.1 r.2 config.addresses config.topics
        if results.all exceptIsOk then
          ⟨.ok (results.filterMap exceptLogs).flatten, chunks, true⟩
        else
          ⟨.diverge, chunks, true⟩

/-! ## The worker retry loop and the collector, modelled faithfully

The retry loop (query.go lines 92-104) is modelled attempt by attempt:
the oracle maps the attempt number to that attempt's fetch outcome, and
fuel bounds how many attempts we observe.  The loop body has no
cancellation check: on error it sleeps and re-issues unconditionally. -/

/-- One attempt of the worker's retry loop: the `(logs, err)` pair the
`FilterLogs` call leaves in the loop's variables. -/
def fetchAttempt (fetch : Nat → Except Unit (List Log)) (attempt : Nat) :
    List Log × Option Unit :=
  match fetch attempt with
  | .ok logs => (logs, none)
  | .error e => ([], some e)

/-- The worker retry loop: on error, sleep and retry (no cancellation
check); on success, exit carrying the final `(logs, err)` pair.
`none` means the loop is still running after `fuel` attempts. -/
def retryLoop (fetch : Nat → Except Unit (List Log)) :
    Nat → Nat → Option (List Log × Option Unit)
  | _, 0 => none
  | attempt, fuel + 1 =>
    let r := fetchAttempt fetch attempt
    match r.2 with
    | some _ => retryLoop fetch (attempt + 1) fuel
    | none => some r

/-- `QueryResult` (query.go lines 30-37), without the duration field. -/
structure QueryResult where
  logs : List Log
  fromBlock : Int
  toBlock : Int
  err : Option Unit
  workerID : Nat
deriving DecidableEq, Repr

/-- What a worker sends on `resultChan` for one work item, if its retry
loop ever exits: the `QueryResult` built from the loop's final state
(query.go lines 107-114). -/
def workerDeliver (fetch : Nat → Except Unit (List Log)) (fromBlock toBlock : Int)
    (workerID : Nat) (fuel : Nat) : Option QueryResult :=
  match retryLoop fetch 0 fuel with
  | none => none
  | some r =>
    some { logs := r.1, fromBlock := fromBlock, toBlock := toBlock,
           err := r.2, workerID := workerID }

/-- The collector's accumulation state (query.go lines 147-150):
merged logs, failing chunk ranges, and chunk counters. -/
structure CollectState where
  allLogs : List Log
  errors : List (Int × Int)
  totalChunks : Nat
  successfulChunks : Nat
deriving DecidableEq, Repr

/-- One step of the result-collection loop (query.go lines 152-161). -/
def collectStep (st : CollectState) (r : QueryResult) : CollectState :=
  let st := { st with totalChunks := st.totalChunks + 1 }
  match r.err with
  | some _ => { st with errors := st.errors ++ [(r.fromBlock, r.toBlock)] }
  | none =>
      { st with successfulChunks := st.successfulChunks + 1,
                allLogs := st.allLogs ++ r.logs }

/-- Errors of the gathering phase: cancellation (line 164-166) and the
aggregate chunks-failed error (lines 169-172), carrying the successful
and total chunk counts. -/
inductive GatherError where
  | cancelled
  | aggregate (successful total : Nat)
deriving DecidableEq, Repr

/-- The gathering phase of `PaginatedQuery` (query.go lines 146-174):
fold the delivered results, then check cancellation, then the
accumulated errors. -/
def gatherResults (results : List QueryResult) (ctxErr : Option Unit) :
    Except GatherError (List Log) :=
  let st := results.foldl collectStep ⟨[], [], 0, 0⟩
  if ctxErr.isSome then .error .cancelled
  else if st.errors.length > 0 then
    .error (.aggregate st.successfulChunks st.totalChunks)
  else .ok st.allLogs

/-! ## The bundle sequence detector (`SearchBundle`, `findBundleInBlock`) -/

/-- `BundleSearchConfig` from query.go (the `OutputFile` field only names
the JSON file the caller may write and is omitted). -/
structure BundleSearchConfig where
  eventSignatures : List Nat
  addresses : List Nat
  startBlock : Option Int
  endBlock : Option Int
  maxWorkers : Int
  chunkSize : Int
deriving DecidableEq, Repr

/-- The per-log check inside `findBundleInBlock` (query.go lines
347-363): topic 0 equals the step's signature hash, and, when an
address is supplied for this step, it is the zero address (wildcard) or
equals the log's emitting address. -/
def logMatchesStep (addresses : List Nat) (i : Nat) (sig : Nat) (l : Log) : Bool :=
  l.topics.head? == some sig &&
    match addresses.get? i with
    | some expectedAddr => expectedAddr == 0 || l.address == expectedAddr
    | none => true

/-- The signature loop of `findBundleInBlock` (query.go lines 329-371):
for step `i`, the transaction at `startIndex + i` must exist, its
receipt must be fetchable, and some receipt log must match the step;
any failure discards the whole candidate (`none`). -/
def checkSignatures (getReceipt : Nat → Except Unit Receipt)
    (transactions : List Tx) (startIndex : Nat) (addresses : List Nat) :
    Nat → List Nat → Option (List Tx)
  | _, [] => some []
  | i, sig :: rest =>
    match transactions.get? (startIndex + i) with
    | none => none
    | some tx =>
      match getReceipt tx.hash with
      | .error _ => none
      | .ok receipt =>
        if receipt.logs.any (logMatchesStep addresses i sig) then
          match checkSignatures getReceipt transactions startIndex addresses
              (i + 1) rest with
          | none => none
          | some rest' => some (tx :: rest')
        else none

/-- `findBundleInBlock` (query.go lines 318-374): empty list plays the
role of Go's `nil` failure result.  The guard mirrors
`len(transactions) - startIndex < len(signatures)` over Go ints. -/
def findBundleInBlock (getReceipt : Nat → Except Unit Receipt) (block : Block)
    (startIndex : Nat) (signatures : List Nat) (addresses : List Nat) : List Tx :=
  if (block.transactions.length : Int) - startIndex < signatures.length then []
  else
    match checkSignatures getReceipt block.transactions startIndex addresses
        0 signatures with
    | none => []
    | some bundleTxs => bundleTxs

/-- First-appearance-order deduplication; determinizes the iteration
over Go's `blockTxMap` maps, whose key sets these lists are. -/
def dedupFirst (xs : List Nat) : List Nat :=
  xs.foldl (fun acc x => if x ∈ acc then acc else acc ++ [x]) []

/-- The bundles `SearchBundle` collects for one fetched block (query.go
lines 265-312): candidate start indices are the positions of the
first-signature transactions in the block's order, and a candidate
contributes iff `findBundleInBlock` returns a non-empty bundle. -/
def processBlock (getReceipt : Nat → Except Unit Receipt)
    (signatures addresses : List Nat) (allLogs : List Log) (bn : Nat)
    (block : Block) : List (List Tx) :=
  let txHashes :=
    dedupFirst ((allLogs.filter fun l => l.blockNumber == bn).map (·.txHash))
  let startIndices :=
    txHashes.filterMap fun h => block.transactions.findIdx? fun tx => tx.hash == h
  startIndices.filterMap fun idx =>
    if (findBundleInBlock getReceipt block idx signatures addresses).length > 0
    then some (findBundleInBlock getReceipt block idx signatures addresses)
    else none

/-- The block-processing phase of `SearchBundle` (query.go lines
239-313): group logs by block, fetch each block, skip blocks whose
fetch fails, and collect the per-block bundles. -/
def collectBundles (getBlock : Nat → Except Unit Block)
    (getReceipt : Nat → Except Unit Receipt) (signatures addresses : List Nat)
    (allLogs : List Log) : List (List Tx) :=
  let blockNums := dedupFirst (allLogs.map (·.blockNumber))
  (blockNums.filterMap fun bn =>
    match getBlock bn with
    | .error _ => none
    | .ok block => some (processBlock getReceipt signatures addresses allLogs bn block)).flatten

/-- Errors `SearchBundle` returns: the four validation failures
(query.go lines 190-201, in check order) and a failed first-signature
range query (lines 231-234). -/
inductive SBError where
  | noSignatures
  | missingBounds
  | startGtEnd
  | addrSigMismatch
  | step1Failed (e : PQError)
deriving DecidableEq, Repr

/-- Observable outcome of `SearchBundle`: bundles, an error return, the
index-out-of-range panic from `config.Addresses[0]` on an empty
addresses slice (line 225), or divergence inherited from the range
query. -/
inductive SBOutcome where
  | ok (bundles : List (List Tx))
  | err (e : SBError)
  | panicIndex
  | diverge
deriving DecidableEq, Repr

/-- `SearchBundle` (query.go lines 189-315), determinized: validation,
defaults, the first-signature range query built from
`[]common.Address{config.Addresses[0]}` and `[[firstSigHash]]`, then
block-by-block bundle collection. -/
def searchBundle (fetch : FetchFn) (getBlock : Nat → Except Unit Block)
    (getReceipt : Nat → Except Unit Receipt) (config : BundleSearchConfig) :
    SBOutcome :=
  match config.eventSignatures with
  | [] => .err .noSignatures
  | firstSig :: _ =>
    match config.startBlock, config.endBlock with
    | none, _ => .err .missingBounds
    | some _, none => .err .missingBounds
    | some startBlock, some endBlock =>
      if startBlock > endBlock then .err .startGtEnd
      else if config.addresses.length > 0 ∧
          config.addresses.length ≠ config.eventSignatures.length then
        .err .addrSigMismatch
      else
        let maxWorkers := if config.maxWorkers ≤ 0 then 3 else config.maxWorkers
        let chunkSize := if config.chunkSize ≤ 0 then 1000 else config.chunkSize
        match config.addresses with
        | [] => .panicIndex
        | addr0 :: _ =>
          let queryConfig : QueryConfig :=
            { fromBlock := some startBlock, toBlock := some endBlock,
              addresses := [addr0], topics := [[firstSig]],
              maxWorkers := maxWorkers, chunkSize := chunkSize }
          match (paginatedQuery fetch queryConfig).outcome with
          | .err e => .err (.step1Failed e)
          | .diverge => .diverge
          | .ok allLogs =>
            .ok (collectBundles getBlock getReceipt config.eventSignatures
                  config.addresses allLogs)

/-! ## Concrete inputs used by closed theorems and witnesses -/

/-- A fetch capability honouring the filter over a chain whose only log
sits at block 4: the log is returned iff block 4 is inside the queried
range. -/
def fetchBlocks4 : FetchFn := fun a b _ _ =>
  .ok (if a ≤ 4 ∧ 4 ≤ b then [⟨1, [1], 4, 1⟩] else [])

/-- Query over `[0, 4]` with chunk size 2 (takes the chunked path,
since `4 - 0 > 2`). -/
def cfg04 : QueryConfig := ⟨some 0, some 4, [], [], 1, 2⟩

/-- Query over `[100, 100050]` with chunk size 10000 and 3 workers. -/
def cfg100050 : QueryConfig := ⟨some 100, some 100050, [], [], 3, 10000⟩

/-- Query over `[0, 2]` with chunk size 2 (a 3-block range). -/
def cfg022 : QueryConfig := ⟨some 0, some 2, [], [], 1, 2⟩

/-- A fetch capability that always succeeds with no logs. -/
def okEmptyFetch : FetchFn := fun _ _ _ _ => .ok []

/-- A fetch capability that always fails. -/
def errFetch : FetchFn := fun _ _ _ _ => .error ()

/-- A block capability that always fails. -/
def errGetBlock : Nat → Except Unit Block := fun _ => .error ()

/-- A receipt capability that always fails. -/
def errGetReceipt : Nat → Except Unit Receipt := fun _ => .error ()

/-- Bundle search with one signature and no addresses over `[0, 0]`. -/
def cfgNoAddrs : BundleSearchConfig := ⟨[1], [], some 0, some 0, 0, 0⟩

/-- A log emitted by contract address 7 with topic-0 signature 5. -/
def log7 : Log := ⟨7, [5], 0, 100⟩

/-- A fetch capability honouring the address filter over a chain whose
only log is `log7` (from address 7): the log is returned iff the
address filter is empty (wildcard) or lists address 7. -/
def filterRespectingFetch : FetchFn := fun _ _ addrs _ =>
  .ok (if addrs = [] ∨ 7 ∈ addrs then [log7] else [])

/-- Bundle search with one signature and the zero address at position
0 over `[0, 0]`. -/
def cfgZeroAddr : BundleSearchConfig := ⟨[5], [0], some 0, some 0, 0, 0⟩

/-- `FilterLogs` under a cancelled context: every attempt returns the
context's error. -/
def cancelledFetch : Nat → Except Unit (List Log) := fun _ => .error ()

/-! ## Theorems -/

/-- C1: FALSIFIED BY THE CODE (code bug).  On the chunked path the
producer loop runs while `currentBlock < ToBlock` (strict), so when the
chunk size divides `ToBlock - FromBlock` the final block is enqueued in
no sub-range: for `[0, 4]` with chunk size 2 the produced sub-ranges
are `[0,1],[2,3]`, block 4 lies in none of them, and `PaginatedQuery`
returns without error a log set missing block 4's log — silently
partial data. -/
theorem paginatedQuery_drops_final_block :
    (paginatedQuery fetchBlocks4 cfg04).usedWorkerPool = true ∧
    (paginatedQuery fetchBlocks4 cfg04).issued = [(0, 1), (2, 3)] ∧
    (∀ r ∈ (paginatedQuery fetchBlocks4 cfg04).issued, ¬(r.1 ≤ 4 ∧ 4 ≤ r.2)) ∧
    (paginatedQuery fetchBlocks4 cfg04).outcome = .ok [] := by
  decide

/-- C2: FALSIFIED BY THE CODE (code bug).  The worker retry loop
(query.go lines 92-104) contains no cancellation check: on error it
sleeps and re-issues unconditionally.  Under a cancelled context the
fetch fails on every attempt, so the loop never exits no matter how
many retry intervals elapse — the worker keeps running and no
`CancellationError` is produced from it. -/
theorem retryLoop_never_exits_after_cancellation :
    ∀ fuel attempt, retryLoop cancelledFetch attempt fuel = none := by
  intro fuel
  induction fuel with
  | zero => intro attempt; rfl
  | succ n ih => intro attempt; simp [retryLoop, fetchAttempt, cancelledFetch, ih]

/-- C3: FALSIFIED BY THE CODE (code bug).  `SearchBundle` evaluates
`config.Addresses[0]` unconditionally, so with absent addresses (which
validation deliberately permits) it panics with an index-out-of-range
instead of querying; and with the zero address at position 0 it passes
`[0]` as the address filter of the step-1 range query, so a
filter-honouring fetch returns nothing (the zero address constrains the
query rather than acting as a wildcard), though the same fetch without
an address constraint would return the matching log. -/
theorem searchBundle_addresses0_not_wildcard :
    searchBundle errFetch errGetBlock errGetReceipt cfgNoAddrs = .panicIndex ∧
    filterRespectingFetch 0 0 [] [[5]] = .ok [log7] ∧
    searchBundle filterRespectingFetch errGetBlock errGetReceipt cfgZeroAddr =
      .ok [] := by
  decide

/-- C10: the producer's chunk sequence is a deterministic function of
`(FromBlock, ToBlock, chunkSize)`: two runs on equal inputs produce
equal sub-range lists. -/
theorem generateChunks_deterministic (f1 t1 c1 f2 t2 c2 : Int)
    (hf : f1 = f2) (ht : t1 = t2) (hc : c1 = c2) :
    generateChunks f1 t1 c1 = generateChunks f2 t2 c2 := by
  subst hf; subst ht; subst hc; rfl

/-- Witness for C10 at `(0, 4, 2)`. -/
theorem generateChunks_deterministic_witness :
    (0 : Int) = 0 ∧ generateChunks 0 4 2 = generateChunks 0 4 2 :=
  ⟨rfl, generateChunks_deterministic 0 4 2 0 4 2 rfl rfl rfl⟩

/-- C4, counterexample: over `[100, 100050]` with chunk size 10000 the
chunked path issues 10 chunk queries, not 11. -/
theorem paginatedQuery_issues_ten_chunks_not_eleven :
    ¬((paginatedQuery okEmptyFetch cfg100050).issued.length = 11) := by
  decide

/-- C5, counterexample: for `(from, to, chunkSize) = (0, 2, 2)` the
code takes the single direct query (its test is `to - from ≤
chunkSize`) although `to - from + 1 ≤ chunkSize` fails, and the one
range it passes to the fetch capability spans 3 > 2 blocks. -/
theorem paginatedQuery_single_query_exceeds_chunkSize :
    (paginatedQuery okEmptyFetch cfg022).usedWorkerPool = false ∧
    ¬((2 : Int) - 0 + 1 ≤ 2) ∧
    ∃ r ∈ (paginatedQuery okEmptyFetch cfg022).issued, r.2 - r.1 + 1 > 2 := by
  decide

/-- Every sub-range the producer loop emits spans at most `chunkSize`
blocks. -/
lemma chunkLoop_span (toB cs : Int) :
    ∀ fuel cur, ∀ r ∈ chunkLoop toB cs fuel cur, r.2 - r.1 + 1 ≤ cs := by
  intro fuel
  induction fuel with
  | zero => intro cur r hr; simp [chunkLoop] at hr
  | succ n ih =>
    intro cur r hr
    by_cases h : cur < toB
    · simp only [chunkLoop, if_pos h, List.mem_cons] at hr
      rcases hr with h1 | h2
      · subst h1
        by_cases hc : cur + (cs - 1) > toB
      <;> simp only [if_pos, if_neg, hc, ite_true, ite_false] <;> omega
      · exact ih _ _ h2
    · simp [chunkLoop, h] at hr

/-- C5, amended: for every valid `(from, to, chunkSize)` the single
direct query (skipping the worker pool) happens exactly when
`to - from ≤ chunkSize` — i.e. when the range has at most
`chunkSize + 1` blocks, not `chunkSize` — in which case the one issued
range is `[from, to]` itself; on the worker-pool path every issued
sub-range spans at most `chunkSize` blocks. -/
theorem paginatedQuery_single_iff_and_chunk_span
    (fetch : FetchFn) (cfg : QueryConfig) (fromB toB : Int)
    (hf : cfg.fromBlock = some fromB) (ht : cfg.toBlock = some toB)
    (hle : fromB ≤ toB) :
    ((paginatedQuery fetch cfg).usedWorkerPool = false ↔
      toB - fromB ≤ effChunkSize cfg.chunkSize) ∧
    (toB - fromB ≤ effChunkSize cfg.chunkSize →
      (paginatedQuery fetch cfg).issued = [(fromB, toB)]) ∧
    (∀ r ∈ (paginatedQuery fetch cfg).issued,
      (paginatedQuery fetch cfg).usedWorkerPool = true →
      r.2 - r.1 + 1 ≤ effChunkSize cfg.chunkSize) := by
  obtain ⟨fb, tb, addrs, tps, mw, cs⟩ := cfg
  simp only at hf ht
  subst hf; subst ht
  have hgt : ¬ fromB > toB := by omega
  simp only [paginatedQuery, if_neg hgt]
  by_cases hsmall : toB - fromB ≤ effChunkSize cs
  · rw [if_pos hsmall]
    cases hfr : fetch fromB toB addrs tps with
    | ok logs => simpa using hsmall
    | error e => simpa using hsmall
  · rw [if_neg hsmall]
    refine ⟨?_, fun hc => absurd hc hsmall, ?_⟩
    · split <;> simp [hsmall]
    · intro r hr _
      have hr' : r ∈ generateChunks fromB toB (effChunkSize cs) := by
        revert hr; split <;> exact id
      exact chunkLoop_span _ _ _ _ r hr'

/-- A list of successful fetch results passes the all-ok check. -/
lemma all_ok_map (l : List (Int × Int)) (g : Int × Int → List Log) :
    (l.map fun r => (Except.ok (g r) : Except Unit (List Log))).all
      exceptIsOk = true := by
  induction l with
  | nil => rfl
  | cons x xs ih => simp [exceptIsOk, ih]

/-- Extracting the logs of uniformly successful fetch results is just
mapping the fetch. -/
lemma filterMap_ok_map (l : List (Int × Int)) (g : Int × Int → List Log) :
    (l.map fun r => (Except.ok (g r) : Except Unit (List Log))).filterMap
      exceptLogs = l.map g := by
  induction l with
  | nil => rfl
  | cons x xs ih => simp [exceptLogs, ih]

/-- The chunked path under an always-successful fetch: the issued
queries are exactly the producer's chunks and the result is the
concatenation, chunk by chunk, of the per-chunk log sets. -/
lemma paginatedQuery_chunked_ok (f : Int → Int → List Log) (cfg : QueryConfig)
    (fromB toB : Int) (hf : cfg.fromBlock = some fromB)
    (ht : cfg.toBlock = some toB) (hgt : ¬ fromB > toB)
    (hbig : ¬ (toB - fromB ≤ effChunkSize cfg.chunkSize)) :
    paginatedQuery (fun a b _ _ => .ok (f a b)) cfg =
      ⟨.ok ((generateChunks fromB toB (effChunkSize cfg.chunkSize)).map
          fun r => f r.1 r.2).flatten,
        generateChunks fromB toB (effChunkSize cfg.chunkSize), true⟩ := by
  obtain ⟨fb, tb, addrs, tps, mw, cs⟩ := cfg
  simp only at hf ht hbig ⊢
  subst hf; subst ht
  simp only [paginatedQuery, if_neg hgt, if_neg hbig]
  rw [if_pos (all_ok_map _ _), filterMap_ok_map]

/-- C4, amended: with any fetch capability returning a fixed log set
per queried sub-range, `PaginatedQuery` over `[100, 100050]` with chunk
size 10000 issues exactly 10 chunk queries (the producer's chunks), and
its result is the concatenation of the per-chunk log sets, each chunk
contributing exactly once — no duplicates, no omissions. -/
theorem paginatedQuery_100_100050_ten_chunk_union (f : Int → Int → List Log) :
    paginatedQuery (fun a b _ _ => .ok (f a b)) cfg100050 =
      ⟨.ok ((generateChunks 100 100050 10000).map fun r => f r.1 r.2).flatten,
        generateChunks 100 100050 10000, true⟩ ∧
    (generateChunks 100 100050 10000).length = 10 := by
  constructor
  · have h := paginatedQuery_chunked_ok f cfg100050 100 100050 rfl rfl
      (by decide) (by decide)
    rw [(by decide : effChunkSize cfg100050.chunkSize = 10000)] at h
    exact h
  · decide

/-- The retry loop exits only with a `nil` error: the break is guarded
by `err == nil`. -/
lemma retryLoop_exit_err_none (fetch : Nat → Except Unit (List Log)) :
    ∀ fuel attempt r, retryLoop fetch attempt fuel = some r → r.2 = none := by
  intro fuel
  induction fuel with
  | zero => intro attempt r h; exact absurd h (by simp [retryLoop])
  | succ n ih =>
    intro attempt r h
    unfold retryLoop at h
    cases hfa : fetch attempt with
    | ok logs =>
      simp only [fetchAttempt, hfa] at h
      exact congrArg Prod.snd (Option.some_injective _ h).symm
    | error e =>
      simp only [fetchAttempt, hfa] at h
      exact ih (attempt + 1) r h

/-- Every `QueryResult` a worker delivers carries `err = nil`. -/
lemma workerDeliver_err_none (fetch : Nat → Except Unit (List Log))
    (fromB toB : Int) (wid fuel : Nat) (r : QueryResult)
    (h : workerDeliver fetch fromB toB wid fuel = some r) : r.err = none := by
  unfold workerDeliver at h
  cases hrl : retryLoop fetch 0 fuel with
  | none => rw [hrl] at h; exact absurd h (by simp)
  | some p =>
    rw [hrl] at h
    have hp := retryLoop_exit_err_none fetch fuel 0 p hrl
    cases h' : (Option.some_injective _ h).symm
    simpa using hp

/-- Folding the collector over error-free results accumulates no
errors. -/
lemma foldl_collectStep_no_errors (rs : List QueryResult) :
    ∀ st : CollectState, (∀ r ∈ rs, r.err = none) →
      (rs.foldl collectStep st).errors = st.errors := by
  induction rs with
  | nil => intro st _; rfl
  | cons r rs ih =>
    intro st h
    have hr : r.err = none := h r (by simp)
    simp only [List.foldl_cons]
    rw [ih _ fun x hx => h x (by simp [hx])]
    simp [collectStep, hr]

/-- C9: because each worker retries its chunk unconditionally until the
fetch succeeds, every `QueryResult` delivered to the collector has a
`nil` error, so the collector's error-accumulation branch is
unreachable and the gathering phase never returns the aggregate
"chunks failed" error. -/
theorem gatherResults_never_aggregate_error (rs : List QueryResult)
    (ctxErr : Option Unit)
    (h : ∀ r ∈ rs, ∃ fetch fromB toB wid fuel,
      workerDeliver fetch fromB toB wid fuel = some r) :
    ∀ s t, gatherResults rs ctxErr ≠ .error (.aggregate s t) := by
  intro s t
  have herr : ∀ r ∈ rs, r.err = none := by
    intro r hr
    obtain ⟨fetch, fromB, toB, wid, fuel, hw⟩ := h r hr
    exact workerDeliver_err_none fetch fromB toB wid fuel r hw
  simp only [gatherResults]
  rw [foldl_collectStep_no_errors rs _ herr]
  by_cases hc : ctxErr.isSome <;> simp [hc]

/-- Witness for C9: a singleton result list delivered by a worker whose
fetch succeeded immediately. -/
theorem gatherResults_never_aggregate_error_witness :
    gatherResults [⟨[], 0, 1, none, 0⟩] none ≠ .error (.aggregate 0 1) :=
  gatherResults_never_aggregate_error [⟨[], 0, 1, none, 0⟩] none
    (by
      intro r hr
      simp only [List.mem_singleton] at hr
      subst hr
      exact ⟨fun _ => .ok [], 0, 1, 0, 1, by decide⟩) 0 1

/-- C7: both public operations fail immediately with a validation error
and issue no fetch: `PaginatedQuery` on absent bounds or `from > to`
(its issued-query list is empty), and `SearchBundle` additionally on an
empty signature list or an addresses list whose length differs from the
signatures' (its result is a validation error and is independent of all
three external capabilities, so no fetch can have been consulted). -/
theorem validation_rejects_before_any_fetch :
    (∀ (fetch : FetchFn) (cfg : QueryConfig),
      cfg.fromBlock = none ∨ cfg.toBlock = none ∨
        (∃ f t, cfg.fromBlock = some f ∧ cfg.toBlock = some t ∧ f > t) →
      (paginatedQuery fetch cfg).issued = [] ∧
        ((paginatedQuery fetch cfg).outcome = .err .missingBounds ∨
          (paginatedQuery fetch cfg).outcome = .err .fromGtTo)) ∧
    (∀ (fetch fetch' : FetchFn) (gB gB' : Nat → Except Unit Block)
        (gR gR' : Nat → Except Unit Receipt) (cfg : BundleSearchConfig),
      cfg.eventSignatures = [] ∨ cfg.startBlock = none ∨ cfg.endBlock = none ∨
        (∃ f t, cfg.startBlock = some f ∧ cfg.endBlock = some t ∧ f > t) ∨
        (cfg.addresses.length > 0 ∧
          cfg.addresses.length ≠ cfg.eventSignatures.length) →
      (∃ e, searchBundle fetch gB gR cfg = .err e ∧
          (e = .noSignatures ∨ e = .missingBounds ∨ e = .startGtEnd ∨
            e = .addrSigMismatch)) ∧
        searchBundle fetch gB gR cfg = searchBundle fetch' gB' gR' cfg) := by
  constructor
  · intro fetch cfg h
    obtain ⟨fb, tb, addrs, tps, mw, cs⟩ := cfg
    simp only at h
    match fb, tb, h with
    | none, tb, _ => exact ⟨rfl, .inl rfl⟩
    | some f, none, _ => exact ⟨rfl, .inl rfl⟩
    | some f, some t, h =>
      have hgt : f > t := by
        rcases h with h | h | ⟨f', t', hf', ht', hgt⟩
        · exact absurd h (by simp)
        · exact absurd h (by simp)
        · cases hf'; cases ht'; exact hgt
      exact ⟨by simp [paginatedQuery, if_pos hgt],
        .inr (by simp [paginatedQuery, if_pos hgt])⟩
  · intro fetch fetch' gB gB' gR gR' cfg h
    obtain ⟨sigs, addrs, sb, eb, mw, cs⟩ := cfg
    simp only at h
    match sigs, sb, eb, h with
    | [], sb, eb, _ => exact ⟨⟨.noSignatures, rfl, .inl rfl⟩, rfl⟩
    | s :: ss, none, eb, _ => exact ⟨⟨.missingBounds, rfl, .inr (.inl rfl)⟩, rfl⟩
    | s :: ss, some f, none, _ =>
      exact ⟨⟨.missingBounds, rfl, .inr (.inl rfl)⟩, rfl⟩
    | s :: ss, some f, some t, h =>
      have h' : f > t ∨ (addrs.length > 0 ∧ addrs.length ≠ (s :: ss).length) := by
        rcases h with h | h | h | ⟨f', t', hf', ht', hgt⟩ | h
        · exact absurd h (by simp)
        · exact absurd h (by simp)
        · exact absurd h (by simp)
        · cases hf'; cases ht'; exact .inl hgt
        · exact .inr h
      by_cases hgt : f > t
      · exact ⟨⟨.startGtEnd, by simp [searchBundle, if_pos hgt],
          .inr (.inr (.inl rfl))⟩, by simp [searchBundle, if_pos hgt]⟩
      · have hmm : addrs.length > 0 ∧ addrs.length ≠ (s :: ss).length := by
          rcases h' with h' | h'
          · exact absurd h' hgt
          · exact h'
        exact ⟨⟨.addrSigMismatch,
            by simp only [searchBundle]; rw [if_neg hgt, if_pos hmm],
            .inr (.inr (.inr rfl))⟩,
          by
            simp only [searchBundle]
            rw [if_neg hgt, if_pos hmm, if_neg hgt, if_pos hmm]⟩

/-- Witness for C7: `PaginatedQuery` with `from = 5 > to = 3` and
`SearchBundle` with an empty signature list. -/
theorem validation_rejects_before_any_fetch_witness :
    ((paginatedQuery okEmptyFetch ⟨some 5, some 3, [], [], 1, 2⟩).issued = [] ∧
      ((paginatedQuery okEmptyFetch ⟨some 5, some 3, [], [], 1, 2⟩).outcome =
          .err .missingBounds ∨
        (paginatedQuery okEmptyFetch ⟨some 5, some 3, [], [], 1, 2⟩).outcome =
          .err .fromGtTo)) ∧
    ((∃ e, searchBundle okEmptyFetch errGetBlock errGetReceipt
          ⟨[], [], some 0, some 1, 1, 2⟩ = .err e ∧
        (e = .noSignatures ∨ e = .missingBounds ∨ e = .startGtEnd ∨
          e = .addrSigMismatch)) ∧
      searchBundle okEmptyFetch errGetBlock errGetReceipt
          ⟨[], [], some 0, some 1, 1, 2⟩ =
        searchBundle errFetch errGetBlock errGetReceipt
          ⟨[], [], some 0, some 1, 1, 2⟩) :=
  ⟨validation_rejects_before_any_fetch.1 okEmptyFetch _
      (.inr (.inr ⟨5, 3, rfl, rfl, by decide⟩)),
    validation_rejects_before_any_fetch.2 okEmptyFetch errFetch errGetBlock
      errGetBlock errGetReceipt errGetReceipt _ (.inl rfl)⟩

/-- C8: `SearchBundle` is best-effort.  For any configuration passing
validation (and with a non-empty addresses list, avoiding the
`Addresses[0]` panic of C3), the only error it can return is a failure
of step 1's range query; and whenever it returns a bundle list, it
still returns a bundle list under arbitrary replacement block and
receipt capabilities — per-candidate verification failures (missing
transaction, receipt-fetch error, no matching log, even a failed block
fetch) only omit candidates, never surface as errors. -/
theorem searchBundle_best_effort (fetch : FetchFn)
    (gB gB' : Nat → Except Unit Block) (gR gR' : Nat → Except Unit Receipt)
    (cfg : BundleSearchConfig) (s0 : Nat) (rest : List Nat) (a0 : Nat)
    (arest : List Nat) (fromB toB : Int)
    (hs : cfg.eventSignatures = s0 :: rest) (ha : cfg.addresses = a0 :: arest)
    (hsb : cfg.startBlock = some fromB) (heb : cfg.endBlock = some toB)
    (hle : fromB ≤ toB)
    (hlen : cfg.addresses.length = cfg.eventSignatures.length) :
    (∀ e, searchBundle fetch gB gR cfg = .err e → ∃ pe, e = .step1Failed pe) ∧
    (∀ bs, searchBundle fetch gB gR cfg = .ok bs →
      ∃ bs', searchBundle fetch gB' gR' cfg = .ok bs') := by
  obtain ⟨sigs, addrs, sb, eb, mw, cs⟩ := cfg
  simp only at hs ha hsb heb hlen
  subst hs; subst ha; subst hsb; subst heb
  have hgt : ¬ fromB > toB := by omega
  have hmm : ¬ ((a0 :: arest).length > 0 ∧
      (a0 :: arest).length ≠ (s0 :: rest).length) := by
    simp [hlen]
  simp only [searchBundle, if_neg hgt, if_neg hmm]
  cases hq : (paginatedQuery fetch
      { fromBlock := some fromB, toBlock := some toB, addresses := [a0],
        topics := [[s0]], maxWorkers := if mw ≤ 0 then 3 else mw,
        chunkSize := if cs ≤ 0 then 1000 else cs }).outcome with
  | ok logs =>
    refine ⟨fun e he => ?_, fun bs hbs => ?_⟩
    · exact absurd he (by simp)
    · exact ⟨collectBundles gB' gR' (s0 :: rest) (a0 :: arest) logs, rfl⟩
  | err e =>
    refine ⟨fun e' he' => ?_, fun bs hbs => ?_⟩
    · exact ⟨e, by injection he' with h'; exact h'.symm⟩
    · exact absurd hbs (by simp)
  | diverge =>
    refine ⟨fun e' he' => ?_, fun bs hbs => ?_⟩
    · exact absurd he' (by simp)
    · exact absurd hbs (by simp)

/-- Witness for C8: one signature, one (matching-length) address list,
range `[0, 0]`, with an always-failing fetch on the primed side. -/
theorem searchBundle_best_effort_witness :
    ((∀ e, searchBundle okEmptyFetch errGetBlock errGetReceipt
        ⟨[5], [7], some 0, some 0, 0, 0⟩ = .err e →
      ∃ pe, e = .step1Failed pe) ∧
    (∀ bs, searchBundle okEmptyFetch errGetBlock errGetReceipt
        ⟨[5], [7], some 0, some 0, 0, 0⟩ = .ok bs →
      ∃ bs', searchBundle okEmptyFetch errGetBlock errGetReceipt
        ⟨[5], [7], some 0, some 0, 0, 0⟩ = .ok bs')) :=
  searchBundle_best_effort okEmptyFetch errGetBlock errGetBlock errGetReceipt
    errGetReceipt ⟨[5], [7], some 0, some 0, 0, 0⟩ 5 [] 7 [] 0 0 rfl rfl rfl
    rfl (by decide) rfl

/-- Unpacking the per-log Boolean check of `findBundleInBlock`. -/
lemma logMatchesStep_eq_true (addrs : List Nat) (i sig : Nat) (l : Log)
    (h : logMatchesStep addrs i sig l = true) :
    l.topics.head? = some sig ∧
      ∀ a, addrs.get? i = some a → a = 0 ∨ l.address = a := by
  unfold logMatchesStep at h
  rw [Bool.and_eq_true] at h
  obtain ⟨h1, h2⟩ := h
  refine ⟨by simpa using h1, ?_⟩
  intro a ha
  rw [ha] at h2
  rcases Bool.or_eq_true _ _ |>.mp h2 with h3 | h3
  · exact .inl (by simpa using h3)
  · exact .inr (by simpa using h3)

/-- Specification of the signature loop: a successful run returns one
transaction per signature, taken from consecutive block positions
starting at `startIndex + i`, each of whose receipts holds a log
matching the step's signature/address constraint. -/
lemma checkSignatures_spec (g : Nat → Except Unit Receipt) (txs : List Tx)
    (start : Nat) (addrs : List Nat) :
    ∀ (sigs : List Nat) (i : Nat) (bs : List Tx),
      checkSignatures g txs start addrs i sigs = some bs →
      bs.length = sigs.length ∧
      ∀ j sig, sigs.get? j = some sig →
        ∃ tx rcpt, txs.get? (start + i + j) = some tx ∧ bs.get? j = some tx ∧
          g tx.hash = .ok rcpt ∧
          ∃ l ∈ rcpt.logs, logMatchesStep addrs (i + j) sig l = true := by
  intro sigs
  induction sigs with
  | nil =>
    intro i bs h
    simp only [checkSignatures] at h
    cases h
    simp
  | cons sig rest ih =>
    intro i bs h
    unfold checkSignatures at h
    split at h
    · cases h
    · rename_i tx htx
      split at h
      · cases h
      · rename_i receipt hrc
        split at h
        · rename_i hany
          split at h
          · cases h
          · rename_i rest' hrec
            cases h
            obtain ⟨hlen, hspec⟩ := ih (i + 1) rest' hrec
            constructor
            · simp [hlen]
            · intro j s hj
              cases j with
              | zero =>
                simp only [List.get?] at hj
                cases hj
                refine ⟨tx, receipt, by simpa using htx, rfl, hrc, ?_⟩
                simpa [List.any_eq_true] using hany
              | succ j' =>
                simp only [List.get?] at hj
                obtain ⟨tx', rcpt', h1, h2, h3, h4⟩ := hspec j' s hj
                refine ⟨tx', rcpt', ?_, by simpa using h2, h3, ?_⟩
                · have : start + i + (j' + 1) = start + (i + 1) + j' := by omega
                  rw [this]; exact h1
                · have : i + (j' + 1) = i + 1 + j' := by omega
                  rw [this]; exact h4
        · cases h

/-- Specification of `findBundleInBlock`: a non-empty result is a
contiguous run of the block's transactions, one per signature, each
verified through its receipt. -/
lemma findBundleInBlock_spec (g : Nat → Except Unit Receipt) (block : Block)
    (start : Nat) (sigs addrs : List Nat) (bs : List Tx)
    (h : findBundleInBlock g block start sigs addrs = bs) (hne : bs ≠ []) :
    bs.length = sigs.length ∧
    ∀ j sig, sigs.get? j = some sig →
      ∃ tx rcpt, block.transactions.get? (start + j) = some tx ∧
        bs.get? j = some tx ∧ g tx.hash = .ok rcpt ∧
        ∃ l ∈ rcpt.logs, logMatchesStep addrs j sig l = true := by
  unfold findBundleInBlock at h
  split at h
  · exact absurd h.symm hne
  · split at h
    · exact absurd h.symm hne
    · rename_i bsr hcs
      cases h
      obtain ⟨hlen, hspec⟩ := checkSignatures_spec g block.transactions start
        addrs sigs 0 _ hcs
      refine ⟨hlen, fun j sig hj => ?_⟩
      obtain ⟨tx, rcpt, h1, h2, h3, h4⟩ := hspec j sig hj
      exact ⟨tx, rcpt, by simpa using h1, h2, h3, by simpa using h4⟩

/-- Every bundle `collectBundles` emits is a non-empty
`findBundleInBlock` result on a successfully fetched block. -/
lemma mem_collectBundles (gB : Nat → Except Unit Block)
    (gR : Nat → Except Unit Receipt) (sigs addrs : List Nat)
    (allLogs : List Log) (b : List Tx)
    (h : b ∈ collectBundles gB gR sigs addrs allLogs) :
    ∃ bn block start, gB bn = .ok block ∧
      findBundleInBlock gR block start sigs addrs = b ∧ b ≠ [] := by
  unfold collectBundles at h
  rw [List.mem_flatten] at h
  obtain ⟨l, hl, hbl⟩ := h
  rw [List.mem_filterMap] at hl
  obtain ⟨bn, _, heq⟩ := hl
  split at heq
  · cases heq
  · rename_i block hgb
    cases heq
    unfold processBlock at hbl
    rw [List.mem_filterMap] at hbl
    obtain ⟨idx, _, hres⟩ := hbl
    split at hres
    · cases hres
      refine ⟨bn, block, idx, hgb, rfl, ?_⟩
      intro hnil
      simp_all
    · cases hres

/-- C6: every bundle `SearchBundle` returns consists of exactly
`len(signatures)` transactions at strictly consecutive indices
`start, start+1, …` of one block's transaction list, where for each
step `j` the receipt of the transaction at `start + j` contains a log
whose topic-0 equals `signatures[j]` and whose address equals
`addresses[j]`, or `addresses[j]` is the zero-address wildcard, or no
address constrains that step. -/
theorem searchBundle_bundles_are_matching_runs (fetch : FetchFn)
    (gB : Nat → Except Unit Block) (gR : Nat → Except Unit Receipt)
    (cfg : BundleSearchConfig) (bundles : List (List Tx))
    (h : searchBundle fetch gB gR cfg = .ok bundles) :
    ∀ b ∈ bundles, ∃ bn block start,
      gB bn = .ok block ∧
      b.length = cfg.eventSignatures.length ∧
      ∀ j sig, cfg.eventSignatures.get? j = some sig →
        ∃ tx rcpt, block.transactions.get? (start + j) = some tx ∧
          b.get? j = some tx ∧ gR tx.hash = .ok rcpt ∧
          ∃ l ∈ rcpt.logs, l.topics.head? = some sig ∧
            ∀ a, cfg.addresses.get? j = some a → a = 0 ∨ l.address = a := by
  intro b hb
  unfold searchBundle at h
  repeat' split at h
  all_goals try cases h
  all_goals dsimp only at h
  all_goals (repeat' split at h)
  all_goals try cases h
  all_goals
    obtain ⟨bn, block, start, hgb, hfb, hne⟩ :=
      mem_collectBundles gB gR cfg.eventSignatures cfg.addresses _ b hb
  all_goals
    obtain ⟨hlen, hspec⟩ :=
      findBundleInBlock_spec gR block start cfg.eventSignatures cfg.addresses b
        hfb hne
  all_goals refine ⟨bn, block, start, hgb, hlen, fun j sig hj => ?_⟩
  all_goals obtain ⟨tx, rcpt, h1, h2, h3, l, hl, hmatch⟩ := hspec j sig hj
  all_goals
    obtain ⟨ht, haddr⟩ := logMatchesStep_eq_true cfg.addresses j sig l hmatch
  all_goals exact ⟨tx, rcpt, h1, h2, h3, l, hl, ht, haddr⟩

/-- A fetch capability for the C6 witness chain: one log from address
7 with signature 5 in block 10, transaction hash 100. -/
def wFetch : FetchFn := fun _ _ _ _ => .ok [⟨7, [5], 10, 100⟩]

/-- Block 10 of the witness chain: transactions 100 and 101. -/
def wGetBlock : Nat → Except Unit Block := fun bn =>
  if bn == 10 then .ok ⟨[⟨100⟩, ⟨101⟩]⟩ else .error ()

/-- Receipts of the witness chain: transaction 100 emitted signature 5
from address 7, transaction 101 emitted signature 6 from address 9. -/
def wGetReceipt : Nat → Except Unit Receipt := fun txh =>
  if txh == 100 then .ok ⟨[⟨7, [5], 10, 100⟩]⟩
  else if txh == 101 then .ok ⟨[⟨9, [6], 10, 101⟩]⟩
  else .error ()

/-- Bundle search on the witness chain: signatures `[5, 6]`, addresses
`[7, 0]` (position 1 is the zero-address wildcard), range `[10, 10]`. -/
def wCfg : BundleSearchConfig := ⟨[5, 6], [7, 0], some 10, some 10, 0, 0⟩

/-- Witness for C6: on the witness chain the search returns exactly the
bundle `[tx 100, tx 101]`, and the theorem's conclusion holds for it. -/
theorem searchBundle_bundles_are_matching_runs_witness :
    searchBundle wFetch wGetBlock wGetReceipt wCfg = .ok [[⟨100⟩, ⟨101⟩]] ∧
    ∀ b ∈ [[Tx.mk 100, Tx.mk 101]], ∃ bn block start,
      wGetBlock bn = .ok block ∧
      b.length = wCfg.eventSignatures.length ∧
      ∀ j sig, wCfg.eventSignatures.get? j = some sig →
        ∃ tx rcpt, block.transactions.get? (start + j) = some tx ∧
          b.get? j = some tx ∧ wGetReceipt tx.hash = .ok rcpt ∧
          ∃ l ∈ rcpt.logs, l.topics.head? = some sig ∧
            ∀ a, wCfg.addresses.get? j = some a → a = 0 ∨ l.address = a :=
  ⟨by decide,
    searchBundle_bundles_are_matching_runs wFetch wGetBlock wGetReceipt wCfg
      [[⟨100⟩, ⟨101⟩]] (by decide)⟩

/-- Witness for C5's amended theorem at `(0, 2, 2)`. -/
theorem paginatedQuery_single_iff_and_chunk_span_witness :
    ((paginatedQuery okEmptyFetch cfg022).usedWorkerPool = false ↔
      (2 : Int) - 0 ≤ effChunkSize cfg022.chunkSize) ∧
    ((2 : Int) - 0 ≤ effChunkSize cfg022.chunkSize →
      (paginatedQuery okEmptyFetch cfg022).issued = [(0, 2)]) ∧
    (∀ r ∈ (paginatedQuery okEmptyFetch cfg022).issued,
      (paginatedQuery okEmptyFetch cfg022).usedWorkerPool = true →
      r.2 - r.1 + 1 ≤ effChunkSize cfg022.chunkSize) :=
  paginatedQuery_single_iff_and_chunk_span okEmptyFetch cfg022 0 2 rfl rfl
    (by decide)
